import Mathlib

/-!
Shallow embedding of `component/resource/fetcher.go` from ericlindev/mihomo.

The fetcher keeps a typed value `V` parsed from a byte source current.  Its
mutable state is `updatedAt` (a timestamp), `hash` (the fingerprint of the
last committed buffer) and the backoff attempt counter.  The operations
`loadBuf` (the commit step), `Update`, `SideUpdate`, `Initial` and the delay
computation of `pullLoop` are translated as pure functions; all effects the
Go code performs (vehicle reads and writes, `os.Chtimes`, the `onUpdate`
callback, starting a watcher or the poll goroutine) are made explicit as
inputs (outcomes of the collaborator calls) and outputs (a trace of the
effects that were performed).

Time instants and durations (`time.Time`, `time.Duration`) are modelled as
`Int` (nanoseconds); `time.Since(t)` at instant `now` is `now - t`.
Byte buffers (`[]byte`) are `Option (List Nat)`, where `none` is Go's `nil`
slice (the code tests `buf == nil` explicitly, and `utils.MakeHash` treats a
`nil` slice like an empty one).
-/

namespace Resource

/-- The vehicle kinds of `constant/provider` that `fetcher.go` distinguishes:
the only test performed is `f.vehicle.Type() != types.File`, so one non-File
representative (`HTTP`) plus `File` is a faithful model of the branch. -/
inductive VehicleType where
  | File
  | HTTP
  deriving DecidableEq, Repr

/-- Modelled from the spec: the attempt counter of the `slowdown.Backoff`
scheduler (package `component/slowdown` is not among the sources).  Per the
spec, `AddAttempt()` increments the counter. -/
def backoffAddAttempt (n : Nat) : Nat := n + 1

/-- Modelled from the spec: `Reset()` of the `slowdown.Backoff` scheduler
zeroes the attempt counter (package `component/slowdown` is not among the
sources). -/
def backoffReset : Nat := 0

/-- The mutable state of a `Fetcher[V]` that the update pipeline touches:
`updatedAt`, the stored fingerprint `hash`, and the backoff attempt counter.
The fingerprint type `H` is abstract with decidable equality, modelling
`utils.HashType` with its `Equal` method (byte-array equality). -/
structure FetcherState (H : Type) where
  updatedAt : Int
  hash : H
  attempt : Nat
  deriving DecidableEq, Repr

/-- The immutable collaborators of a `Fetcher[V]`, with the outcome of each
effectful collaborator call represented as a function of its argument:
`parser` is the injected `Parser[V]`; `mkHash` models `utils.MakeHash`
(modelled from the spec as an abstract digest function, since
`common/utils` is not among the sources); `write` gives the outcome of
`vehicle.Write` on a buffer; `watchSetup` the outcome of creating and
starting the fswatch watcher; `hasOnUpdate` whether `f.onUpdate != nil`. -/
structure FetcherCfg (V E H : Type) where
  parser : List Nat → Except E V
  mkHash : List Nat → H
  vehicleType : VehicleType
  interval : Int
  write : List Nat → Option E
  watchSetup : Option E
  hasOnUpdate : Bool

/-- The outcome of one update-pipeline execution (`loadBuf`, or `Update`
including its read step): the new fetcher state, the returned triple
`(value, same, error)` — `value = none` models Go's `lo.Empty[V]()` zero
value — and a trace of the effects: the list of `onUpdate` invocations,
whether `os.Chtimes` was called on the mirror, and whether `vehicle.Write`
was called. -/
structure PipelineResult (V E H : Type) where
  state : FetcherState H
  value : Option V
  same : Bool
  error : Option E
  onUpdateCalls : List V
  chtimesCalled : Bool
  writeCalled : Bool
  deriving Repr

variable {V E H : Type}

/-- `loadBuf` of `fetcher.go` (the commit step, lines 98-136), executed under
`loadBufMutex`: fingerprint comparison, nil-buffer check, parse, optional
mirror write, state commit and callback dispatch. -/
def loadBuf [DecidableEq H] (cfg : FetcherCfg V E H) (s : FetcherState H)
    (buf : Option (List Nat)) (hash : H) (updateFile : Bool) (now : Int) :
    PipelineResult V E H :=
  if s.hash = hash then
    { state := { s with updatedAt := now, attempt := backoffReset },
      value := none, same := true, error := none, onUpdateCalls := [],
      chtimesCalled := updateFile, writeCalled := false }
  else
    match buf with
    | none =>
      { state := s, value := none, same := true, error := none,
        onUpdateCalls := [], chtimesCalled := false, writeCalled := false }
    | some b =>
      match cfg.parser b with
      | Except.error e =>
        { state := { s with attempt := backoffAddAttempt s.attempt },
          value := none, same := false, error := some e, onUpdateCalls := [],
          chtimesCalled := false, writeCalled := false }
      | Except.ok contents =>
        match (if updateFile then cfg.write b else none) with
        | some e =>
          { state := { s with attempt := backoffReset }, value := none,
            same := false, error := some e, onUpdateCalls := [],
            chtimesCalled := false, writeCalled := true }
        | none =>
          let s1 := { s with
            attempt := backoffReset
            updatedAt := now
            hash := hash }
          { state := s1,
            value := some contents, same := false, error := none,
            onUpdateCalls := if cfg.hasOnUpdate then [contents] else [],
            chtimesCalled := false, writeCalled := updateFile }

/-- `Update` of `fetcher.go` (lines 85-92).  The outcome of
`f.vehicle.Read(f.ctx, f.hash)` is supplied as `readResult`: either a
transport error, or a (possibly nil) buffer together with the new
fingerprint. -/
def Update [DecidableEq H] (cfg : FetcherCfg V E H) (s : FetcherState H)
    (readResult : Except E (Option (List Nat) × H)) (now : Int) :
    PipelineResult V E H :=
  match readResult with
  | Except.error e =>
    { state := { s with attempt := backoffAddAttempt s.attempt },
      value := none, same := false, error := some e, onUpdateCalls := [],
      chtimesCalled := false, writeCalled := false }
  | Except.ok (buf, hash) =>
    loadBuf cfg s buf hash (cfg.vehicleType ≠ VehicleType.File) now

/-- `SideUpdate` of `fetcher.go` (lines 94-96): commit caller-supplied bytes
with their computed fingerprint, always persisting. -/
def SideUpdate [DecidableEq H] (cfg : FetcherCfg V E H) (s : FetcherState H)
    (buf : Option (List Nat)) (now : Int) : PipelineResult V E H :=
  loadBuf cfg s buf (cfg.mkHash (buf.getD [])) true now

/-- Which background refresh activity `startPullLoop` started: the fswatch
watcher, the poll goroutine `pullLoop(forceUpdate)`, or nothing at all. -/
inductive DriverStart where
  | watcher
  | pullLoop (forceUpdate : Bool)
  | idle
  deriving DecidableEq, Repr

/-- `startPullLoop` of `fetcher.go` (lines 181-200): a File vehicle gets a
watcher (whose setup may fail), a non-File vehicle gets the poll goroutine
when `interval > 0`, and otherwise nothing is started. -/
def startPullLoop (cfg : FetcherCfg V E H) (forceUpdate : Bool) :
    DriverStart × Option E :=
  if cfg.vehicleType = VehicleType.File then
    match cfg.watchSetup with
    | some e => (DriverStart.idle, some e)
    | none => (DriverStart.watcher, none)
  else if 0 < cfg.interval then
    (DriverStart.pullLoop forceUpdate, none)
  else
    (DriverStart.idle, none)

/-- The outcome of `Initial`: final state, returned `(value, error)` pair,
the result of the fallback `f.Update()` when that path ran (`none` when the
local-mirror path returned directly), and which refresh driver was
started. -/
structure InitialResult (V E H : Type) where
  state : FetcherState H
  value : Option V
  error : Option E
  fallbackUpdate : Option (PipelineResult V E H)
  driver : DriverStart
  deriving Repr

/-- The fallback tail of `Initial` (lines 69-82 of `fetcher.go`): run one
direct `f.Update()`, start the pull loop without forcing a refresh even if
the update failed, surface the start error first and the update error
second. -/
def initialFallback [DecidableEq H] (cfg : FetcherCfg V E H)
    (fallbackRead : Except E (Option (List Nat) × H)) (now : Int)
    (s0 : FetcherState H) : InitialResult V E H :=
  let u := Update cfg s0 fallbackRead now
  let sp := startPullLoop cfg false
  match sp.2 with
  | some e =>
    { state := u.state, value := none, error := some e,
      fallbackUpdate := some u, driver := sp.1 }
  | none =>
    match u.error with
    | some e =>
      { state := u.state, value := none, error := some e,
        fallbackUpdate := some u, driver := sp.1 }
    | none =>
      { state := u.state, value := u.value, error := none,
        fallbackUpdate := some u, driver := sp.1 }

/-- `Initial` of `fetcher.go` (lines 52-83).  `statResult` is the outcome of
`os.Stat` (the mirror's modification time when it exists), `readFileResult`
the outcome of `os.ReadFile` (on error Go leaves `buf` nil but the error
itself is discarded by the shadowing assignment on line 57), `fallbackRead`
the outcome of `vehicle.Read` should the fallback `f.Update()` run, and
`now` the current instant. -/
def Initial [DecidableEq H] (cfg : FetcherCfg V E H) (s : FetcherState H)
    (statResult : Option Int) (readFileResult : Except E (List Nat))
    (fallbackRead : Except E (Option (List Nat) × H)) (now : Int) :
    InitialResult V E H :=
  match statResult with
  | none => initialFallback cfg fallbackRead now s
  | some modTime =>
    let buf : Option (List Nat) := readFileResult.toOption
    let r := loadBuf cfg s buf (cfg.mkHash (buf.getD [])) false now
    let s1 := { r.state with updatedAt := modTime }
    match r.error with
    | none =>
      let sp := startPullLoop cfg (decide (now - modTime > cfg.interval))
      match sp.2 with
      | some e =>
        { state := s1, value := none, error := some e,
          fallbackUpdate := none, driver := sp.1 }
      | none =>
        { state := s1, value := r.value, error := none,
          fallbackUpdate := none, driver := sp.1 }
    | some _ => initialFallback cfg fallbackRead now s1

/-- Whether the started driver performs one immediate refresh cycle before
steady-state scheduling: exactly the poll goroutine with `forceUpdate =
true`, whose prelude (line 152-155) runs `updateWithLog` once before the
timer loop.  The watcher never refreshes on its own and a non-forced poll
loop first waits out its initial delay. -/
def InitialResult.immediateRefresh (r : InitialResult V E H) : Bool :=
  match r.driver with
  | DriverStart.pullLoop true => true
  | _ => false

/-- The initial delay of `pullLoop` (lines 147-150): `interval` minus the
time elapsed since `updatedAt`, clamped from above by `interval`. -/
def pullLoopInitialDelay (interval sinceUpdated : Int) : Int :=
  let i := interval - sinceUpdated
  if i > interval then interval else i

/-- The backoff adjustment of `pullLoop` (lines 156-160 and 168-173): when
the attempt counter is nonzero and the backoff delay for that attempt is
smaller than the computed delay, the backoff delay replaces it.
`forAttempt` models `Backoff.ForAttempt`. -/
def pullLoopApplyBackoff (attempt : Nat) (forAttempt : Nat → Int)
    (d : Int) : Int :=
  if 0 < attempt then
    let duration := forAttempt attempt
    if duration < d then duration else d
  else d

/-! Concrete instances used to evaluate the model on explicit inputs. -/

/-- A concrete parser: rejects the buffer `[9]`, otherwise returns the
buffer length. -/
def exParser : List Nat → Except String Nat :=
  fun b => if b = [9] then Except.error "bad" else Except.ok b.length

/-- A concrete non-File configuration: length-based fingerprints (offset by
100 so they never collide with the stored fingerprint 0 of `exState`), a
mirror write that fails exactly on the buffer `[7, 7]`, interval 10. -/
def exCfg : FetcherCfg Nat String Nat :=
  { parser := exParser
    mkHash := fun b => b.length + 100
    vehicleType := VehicleType.HTTP
    interval := 10
    write := fun b => if b = [7, 7] then some "wfail" else none
    watchSetup := none
    hasOnUpdate := true }

/-- The same configuration with a File vehicle (watch strategy). -/
def exCfgFile : FetcherCfg Nat String Nat :=
  { exCfg with vehicleType := VehicleType.File }

/-- A concrete fetcher state with fingerprint 0 and a clean attempt
counter. -/
def exState : FetcherState Nat :=
  { updatedAt := 0, hash := 0, attempt := 0 }

/-- `exState` right after one failed attempt. -/
def exStateFailed : FetcherState Nat :=
  { updatedAt := 0, hash := 0, attempt := 1 }

/-! Branch lemmas for the commit step. -/

/-- Fingerprint-equal branch of `loadBuf` (lines 103-110): a no-op refresh
deciding by fingerprint equality alone. -/
theorem loadBuf_hashEq [DecidableEq H] (cfg : FetcherCfg V E H)
    (s : FetcherState H) (buf : Option (List Nat)) (hash : H) (u : Bool)
    (now : Int) (heq : s.hash = hash) :
    loadBuf cfg s buf hash u now =
      { state := { s with updatedAt := now, attempt := 0 }
        value := none
        same := true
        error := none
        onUpdateCalls := []
        chtimesCalled := u
        writeCalled := false } := by
  subst heq
  simp [loadBuf, backoffReset]

/-- Nil-buffer branch of `loadBuf` (lines 112-114): report unchanged and
touch nothing. -/
theorem loadBuf_nilBuf [DecidableEq H] (cfg : FetcherCfg V E H)
    (s : FetcherState H) (hash : H) (u : Bool) (now : Int)
    (hne : s.hash ≠ hash) :
    loadBuf cfg s none hash u now =
      { state := s
        value := none
        same := true
        error := none
        onUpdateCalls := []
        chtimesCalled := false
        writeCalled := false } := by
  simp [loadBuf, hne]

/-- Parse-failure branch of `loadBuf` (lines 116-120): increment the
attempt counter and return the parse error, touching nothing else. -/
theorem loadBuf_parseError [DecidableEq H] (cfg : FetcherCfg V E H)
    (s : FetcherState H) (b : List Nat) (hash : H) (u : Bool) (now : Int)
    (e : E) (hne : s.hash ≠ hash) (hp : cfg.parser b = Except.error e) :
    loadBuf cfg s (some b) hash u now =
      { state := { s with attempt := s.attempt + 1 }
        value := none
        same := false
        error := some e
        onUpdateCalls := []
        chtimesCalled := false
        writeCalled := false } := by
  simp [loadBuf, hne, hp, backoffAddAttempt]

/-- Persist-failure branch of `loadBuf` (lines 123-127): reset the attempt
counter, return the write error, commit nothing. -/
theorem loadBuf_writeError [DecidableEq H] (cfg : FetcherCfg V E H)
    (s : FetcherState H) (b : List Nat) (hash : H) (now : Int) (v : V)
    (e : E) (hne : s.hash ≠ hash) (hp : cfg.parser b = Except.ok v)
    (hw : cfg.write b = some e) :
    loadBuf cfg s (some b) hash true now =
      { state := { s with attempt := 0 }
        value := none
        same := false
        error := some e
        onUpdateCalls := []
        chtimesCalled := false
        writeCalled := true } := by
  simp [loadBuf, hne, hp, hw, backoffReset]

/-- Successful commit branch of `loadBuf` (lines 121-135): advance
`updatedAt` and the fingerprint, dispatch `onUpdate`, return the parsed
value. -/
theorem loadBuf_commit [DecidableEq H] (cfg : FetcherCfg V E H)
    (s : FetcherState H) (b : List Nat) (hash : H) (u : Bool) (now : Int)
    (v : V) (hne : s.hash ≠ hash) (hp : cfg.parser b = Except.ok v)
    (hw : (if u then cfg.write b else none) = none) :
    loadBuf cfg s (some b) hash u now =
      { state := { s with attempt := 0, updatedAt := now, hash := hash }
        value := some v
        same := false
        error := none
        onUpdateCalls := if cfg.hasOnUpdate then [v] else []
        chtimesCalled := false
        writeCalled := u } := by
  simp [loadBuf, hne, hp, hw, backoffReset]

/-- C1: a commit (`loadBuf`, reached via `Update` or `SideUpdate`) whose
supplied fingerprint equals the stored one reports unchanged with no
error, sets `updatedAt` to now, resets the attempt counter to zero, fires
no `onUpdate`, keeps the stored fingerprint, and when persisting touches
only the mirror's timestamps, never its contents; the branch is decided by
fingerprint equality alone — the byte buffer does not influence the
result. -/
theorem c1_loadBuf_fingerprint_equal_noop [DecidableEq H]
    (cfg : FetcherCfg V E H) (s : FetcherState H)
    (buf buf2 : Option (List Nat)) (updateFile : Bool) (now : Int) :
    loadBuf cfg s buf s.hash updateFile now =
      { state := { s with updatedAt := now, attempt := 0 }
        value := none
        same := true
        error := none
        onUpdateCalls := []
        chtimesCalled := updateFile
        writeCalled := false } ∧
    loadBuf cfg s buf s.hash updateFile now =
      loadBuf cfg s buf2 s.hash updateFile now := by
  constructor <;> simp [loadBuf, backoffReset]

/-- C2: when the parser succeeds but the mirror write fails under the
persist flag, the commit returns the write error, leaves the stored
fingerprint and `updatedAt` unchanged, and does not invoke `onUpdate`
(only the attempt counter is reset), so the next cycle re-reads and
re-parses the same content. -/
theorem c2_loadBuf_persist_failure [DecidableEq H]
    (cfg : FetcherCfg V E H) (s : FetcherState H) (b : List Nat) (hash : H)
    (now : Int) (v : V) (e : E) (hne : s.hash ≠ hash)
    (hp : cfg.parser b = Except.ok v) (hw : cfg.write b = some e) :
    loadBuf cfg s (some b) hash true now =
      { state := { s with attempt := 0 }
        value := none
        same := false
        error := some e
        onUpdateCalls := []
        chtimesCalled := false
        writeCalled := true } := by
  simp [loadBuf, hne, hp, hw, backoffReset]

/-- Witness for C2 at a concrete input: parsing `[7, 7]` succeeds, the
mirror write fails, and the commit reports the write error without
advancing the fingerprint or timestamp. -/
theorem c2_loadBuf_persist_failure_witness :
    exState.hash ≠ 5 ∧ exCfg.parser [7, 7] = Except.ok 2 ∧
    exCfg.write [7, 7] = some "wfail" ∧
    loadBuf exCfg exState (some [7, 7]) 5 true 9 =
      { state := { exState with attempt := 0 }
        value := none
        same := false
        error := some "wfail"
        onUpdateCalls := []
        chtimesCalled := false
        writeCalled := true } :=
  ⟨by decide, rfl, rfl,
    c2_loadBuf_persist_failure exCfg exState [7, 7] 5 9 2 "wfail"
      (by decide) rfl rfl⟩

/-- C3: a failed source read in `Update` and a failed parse in the commit
step each increment the attempt counter by one, return the error, and
leave the stored fingerprint and `updatedAt` unchanged with no `onUpdate`
invocation. -/
theorem c3_read_and_parse_failures [DecidableEq H]
    (cfg : FetcherCfg V E H) (s : FetcherState H) (now : Int) :
    (∀ e : E, Update cfg s (Except.error e) now =
      { state := { s with attempt := s.attempt + 1 }
        value := none
        same := false
        error := some e
        onUpdateCalls := []
        chtimesCalled := false
        writeCalled := false }) ∧
    (∀ (b : List Nat) (hash : H) (u : Bool) (e : E), s.hash ≠ hash →
      cfg.parser b = Except.error e →
      loadBuf cfg s (some b) hash u now =
        { state := { s with attempt := s.attempt + 1 }
          value := none
          same := false
          error := some e
          onUpdateCalls := []
          chtimesCalled := false
          writeCalled := false }) := by
  constructor
  · intro e
    simp [Update, backoffAddAttempt]
  · intro b hash u e hne hp
    exact loadBuf_parseError cfg s b hash u now e hne hp

/-- Witness for C3 at concrete inputs: a transport error and the rejected
buffer `[9]` each bump the attempt counter from 0 to 1 and change nothing
else. -/
theorem c3_read_and_parse_failures_witness :
    (Update exCfg exState (Except.error "net") 3 =
      { state := { exState with attempt := 1 }
        value := none
        same := false
        error := some "net"
        onUpdateCalls := []
        chtimesCalled := false
        writeCalled := false }) ∧
    (exState.hash ≠ 109 ∧ exCfg.parser [9] = Except.error "bad" ∧
      loadBuf exCfg exState (some [9]) 109 true 3 =
        { state := { exState with attempt := 1 }
          value := none
          same := false
          error := some "bad"
          onUpdateCalls := []
          chtimesCalled := false
          writeCalled := false }) :=
  ⟨(c3_read_and_parse_failures exCfg exState 3).1 "net",
   by decide, rfl,
   (c3_read_and_parse_failures exCfg exState 3).2 [9] 109 true "bad"
     (by decide) rfl⟩

/-- Counterexample to C4: the absent-buffer branch of the commit step
returns without error and reports unchanged, yet it does not reset the
attempt counter — a state entered with counter 1 leaves with counter 1,
contradicting the claim that every error-free pipeline execution resets
the counter to zero. -/
theorem c4_absent_buffer_keeps_attempt_cex :
    (loadBuf exCfg exStateFailed none 5 true 7).error = none ∧
    (loadBuf exCfg exStateFailed none 5 true 7).same = true ∧
    (loadBuf exCfg exStateFailed none 5 true 7).state.attempt = 1 := by
  decide

/-- C4 (amended): the attempt counter is incremented by one exactly on a
failed source read or a failed parse; it is reset to zero by the
fingerprint-equal branch and by any execution that parses successfully
(even one whose persist write then fails); the absent-buffer branch
returns without error but leaves the entire state — including a possibly
nonzero counter — untouched. -/
theorem c4_attempt_counter_characterization [DecidableEq H]
    (cfg : FetcherCfg V E H) (s : FetcherState H) (now : Int) :
    (∀ e : E, (Update cfg s (Except.error e) now).state.attempt =
      s.attempt + 1) ∧
    (∀ (buf : Option (List Nat)) (u : Bool),
      (loadBuf cfg s buf s.hash u now).state.attempt = 0) ∧
    (∀ (hash : H) (u : Bool), s.hash ≠ hash →
      loadBuf cfg s none hash u now =
        { state := s
          value := none
          same := true
          error := none
          onUpdateCalls := []
          chtimesCalled := false
          writeCalled := false }) ∧
    (∀ (b : List Nat) (hash : H) (u : Bool) (e : E), s.hash ≠ hash →
      cfg.parser b = Except.error e →
      (loadBuf cfg s (some b) hash u now).state.attempt = s.attempt + 1) ∧
    (∀ (b : List Nat) (hash : H) (u : Bool) (v : V), s.hash ≠ hash →
      cfg.parser b = Except.ok v →
      (loadBuf cfg s (some b) hash u now).state.attempt = 0) := by
  refine ⟨fun e => ?_, fun buf u => ?_, fun hash u hne => ?_,
    fun b hash u e hne hp => ?_, fun b hash u v hne hp => ?_⟩
  · simp [Update, backoffAddAttempt]
  · rw [loadBuf_hashEq cfg s buf s.hash u now rfl]
  · exact loadBuf_nilBuf cfg s hash u now hne
  · rw [loadBuf_parseError cfg s b hash u now e hne hp]
  · cases hw : (if u then cfg.write b else none) with
    | none => rw [loadBuf_commit cfg s b hash u now v hne hp hw]
    | some e =>
      have hu : u = true := by
        by_contra hu
        simp [eq_false_of_ne_true hu] at hw
      subst hu
      simp only [if_pos trivial] at hw
      rw [loadBuf_writeError cfg s b hash now v e hne hp hw]

/-- Witness for C4 (amended) at concrete inputs, one per branch of the
characterization. -/
theorem c4_attempt_counter_characterization_witness :
    (Update exCfg exState (Except.error "off") 4).state.attempt = 1 ∧
    (loadBuf exCfg exState (some [1, 2]) exState.hash true 4).state.attempt
      = 0 ∧
    (exState.hash ≠ 6 ∧ loadBuf exCfg exState none 6 true 4 =
      { state := exState
        value := none
        same := true
        error := none
        onUpdateCalls := []
        chtimesCalled := false
        writeCalled := false }) ∧
    (exCfg.parser [9] = Except.error "bad" ∧
      (loadBuf exCfg exState (some [9]) 109 false 4).state.attempt = 1) ∧
    (exCfg.parser [3] = Except.ok 1 ∧
      (loadBuf exCfg exState (some [3]) 101 true 4).state.attempt = 0) :=
  ⟨(c4_attempt_counter_characterization exCfg exState 4).1 "off",
   (c4_attempt_counter_characterization exCfg exState 4).2.1 (some [1, 2])
     true,
   ⟨by decide, (c4_attempt_counter_characterization exCfg exState 4).2.2.1 6
     true (by decide)⟩,
   ⟨rfl, (c4_attempt_counter_characterization exCfg exState 4).2.2.2.1 [9]
     109 false "bad" (by decide) rfl⟩,
   ⟨rfl, (c4_attempt_counter_characterization exCfg exState 4).2.2.2.2 [3]
     101 true 1 (by decide) rfl⟩⟩

/-- Every pipeline execution returns either the zero value or a genuine
commit: the returned value is `none` (Go's `lo.Empty[V]()`) unless the
execution reports changed content with no error. -/
theorem loadBuf_value_none_or_commit [DecidableEq H]
    (cfg : FetcherCfg V E H) (s : FetcherState H) (buf : Option (List Nat))
    (hash : H) (u : Bool) (now : Int) :
    (loadBuf cfg s buf hash u now).value = none ∨
    ((loadBuf cfg s buf hash u now).same = false ∧
     (loadBuf cfg s buf hash u now).error = none) := by
  by_cases heq : s.hash = hash
  · rw [loadBuf_hashEq cfg s buf hash u now heq]
    exact Or.inl rfl
  · cases buf with
    | none =>
      rw [loadBuf_nilBuf cfg s hash u now heq]
      exact Or.inl rfl
    | some b =>
      cases hp : cfg.parser b with
      | error e =>
        rw [loadBuf_parseError cfg s b hash u now e heq hp]
        exact Or.inl rfl
      | ok v =>
        cases hw : (if u then cfg.write b else none) with
        | none =>
          rw [loadBuf_commit cfg s b hash u now v heq hp hw]
          exact Or.inr ⟨rfl, rfl⟩
        | some e =>
          have hu : u = true := by
            by_contra hu
            simp [eq_false_of_ne_true hu] at hw
          subst hu
          simp only [if_pos trivial] at hw
          rw [loadBuf_writeError cfg s b hash now v e heq hp hw]
          exact Or.inl rfl

/-- C10: whenever `Update` or `SideUpdate` reports unchanged or returns an
error, the value component of the result is the zero value of `V`
(modelled as `none`), never the previously committed parsed value; a
parsed value is returned only by a call that commits new content
(`wasUnchanged = false`, no error). -/
theorem c10_zero_value_unless_commit [DecidableEq H]
    (cfg : FetcherCfg V E H) (s : FetcherState H) (now : Int) :
    (∀ readResult : Except E (Option (List Nat) × H),
      (Update cfg s readResult now).value = none ∨
      ((Update cfg s readResult now).same = false ∧
       (Update cfg s readResult now).error = none)) ∧
    (∀ buf : Option (List Nat),
      (SideUpdate cfg s buf now).value = none ∨
      ((SideUpdate cfg s buf now).same = false ∧
       (SideUpdate cfg s buf now).error = none)) := by
  constructor
  · intro readResult
    cases readResult with
    | error e => exact Or.inl rfl
    | ok p =>
      obtain ⟨buf, hash⟩ := p
      exact loadBuf_value_none_or_commit cfg s buf hash _ now
  · intro buf
    exact loadBuf_value_none_or_commit cfg s buf _ true now

/-- C7: every wait computed by the poll loop is at most the configured
interval.  The initial delay is `interval` minus the elapsed time since
`updatedAt`, clamped from above by `interval`; with a nonzero attempt
counter the backoff delay for that attempt replaces the computed delay
exactly when it is smaller; both the backoff-adjusted initial delay and
the backoff-adjusted steady-state tick delay never exceed `interval`. -/
theorem c7_poll_delays_bounded (interval sinceUpdated d : Int)
    (attempt : Nat) (forAttempt : Nat → Int) :
    pullLoopInitialDelay interval sinceUpdated =
      min (interval - sinceUpdated) interval ∧
    pullLoopApplyBackoff attempt forAttempt d ≤ d ∧
    (0 < attempt → pullLoopApplyBackoff attempt forAttempt d =
      min (forAttempt attempt) d) ∧
    pullLoopApplyBackoff attempt forAttempt
      (pullLoopInitialDelay interval sinceUpdated) ≤ interval ∧
    pullLoopApplyBackoff attempt forAttempt interval ≤ interval := by
  have hle : ∀ x : Int, pullLoopApplyBackoff attempt forAttempt x ≤ x := by
    intro x
    simp only [pullLoopApplyBackoff]
    split <;> [skip; omega]
    split <;> omega
  have hinit : pullLoopInitialDelay interval sinceUpdated ≤ interval := by
    simp only [pullLoopInitialDelay]
    split <;> omega
  refine ⟨?_, hle d, fun ha => ?_, le_trans (hle _) hinit, hle interval⟩
  · simp only [pullLoopInitialDelay]
    rw [min_def]
    split <;> split <;> omega
  · simp only [pullLoopApplyBackoff, if_pos ha]
    rw [min_def]
    split <;> split <;> omega

/-- Witness for C7 at attempt 2 with a concrete backoff table: the delay is
replaced by the smaller backoff value and stays within the interval. -/
theorem c7_poll_delays_bounded_witness :
    (0 < 2 → pullLoopApplyBackoff 2 (fun n => (n : Int)) 6 =
      min ((fun n => (n : Int)) 2) 6) ∧
    pullLoopApplyBackoff 2 (fun n => (n : Int))
      (pullLoopInitialDelay 10 4) ≤ 10 :=
  ⟨(c7_poll_delays_bounded 10 4 6 2 (fun n => (n : Int))).2.2.1,
   (c7_poll_delays_bounded 10 4 6 2 (fun n => (n : Int))).2.2.2.1⟩

/-- C8: if a first `SideUpdate` on a buffer returns without error, an
immediately following second `SideUpdate` on the same buffer reports
unchanged, and across the two calls `onUpdate` fires at most once in
total. -/
theorem c8_sideUpdate_idempotent [DecidableEq H]
    (cfg : FetcherCfg V E H) (s : FetcherState H) (buf : Option (List Nat))
    (now1 now2 : Int)
    (h : (SideUpdate cfg s buf now1).error = none) :
    (SideUpdate cfg (SideUpdate cfg s buf now1).state buf now2).same =
      true ∧
    (SideUpdate cfg s buf now1).onUpdateCalls.length +
      (SideUpdate cfg (SideUpdate cfg s buf now1).state buf
        now2).onUpdateCalls.length ≤ 1 := by
  simp only [SideUpdate] at h ⊢
  have key : ∀ t : FetcherState H,
      t.hash = cfg.mkHash (buf.getD []) ∨ buf = none →
      (loadBuf cfg t buf (cfg.mkHash (buf.getD [])) true now2).same = true ∧
      (loadBuf cfg t buf (cfg.mkHash (buf.getD []))
        true now2).onUpdateCalls = [] := by
    intro t ht
    rcases ht with ht | ht
    · rw [loadBuf_hashEq cfg t buf (cfg.mkHash (buf.getD [])) true now2 ht]
      exact ⟨rfl, rfl⟩
    · subst ht
      by_cases h2 : t.hash = cfg.mkHash (Option.getD none [])
      · rw [loadBuf_hashEq cfg t none (cfg.mkHash (Option.getD none []))
          true now2 h2]
        exact ⟨rfl, rfl⟩
      · rw [loadBuf_nilBuf cfg t (cfg.mkHash (Option.getD none [])) true
          now2 h2]
        exact ⟨rfl, rfl⟩
  have hprop : ((loadBuf cfg s buf (cfg.mkHash (buf.getD [])) true
        now1).state.hash = cfg.mkHash (buf.getD []) ∨ buf = none) ∧
      (loadBuf cfg s buf (cfg.mkHash (buf.getD [])) true
        now1).onUpdateCalls.length ≤ 1 := by
    by_cases heq : s.hash = cfg.mkHash (buf.getD [])
    · rw [loadBuf_hashEq cfg s buf (cfg.mkHash (buf.getD [])) true now1
        heq]
      exact ⟨Or.inl heq, by simp⟩
    · cases buf with
      | none => exact ⟨Or.inr rfl, by
          rw [loadBuf_nilBuf cfg s (cfg.mkHash (Option.getD none [])) true
            now1 heq]
          simp⟩
      | some b =>
        cases hp : cfg.parser b with
        | error e =>
          rw [loadBuf_parseError cfg s b (cfg.mkHash (Option.getD (some b)
            [])) true now1 e heq hp] at h
          exact absurd h (by simp)
        | ok v =>
          cases hw : cfg.write b with
          | some e =>
            rw [loadBuf_writeError cfg s b (cfg.mkHash (Option.getD
              (some b) [])) now1 v e heq hp hw] at h
            exact absurd h (by simp)
          | none =>
            have hw2 : (if true then cfg.write b else none) = none := by
              simpa using hw
            rw [loadBuf_commit cfg s b (cfg.mkHash (Option.getD (some b)
              [])) true now1 v heq hp hw2]
            exact ⟨Or.inl rfl, by cases cfg.hasOnUpdate <;> simp⟩
  obtain ⟨hd, hlen⟩ := hprop
  obtain ⟨hsame, hcalls⟩ := key _ hd
  refine ⟨hsame, ?_⟩
  rw [hcalls]
  simpa using hlen

/-- Witness for C8: side-loading `[1, 2, 3]` twice from the initial state
commits once, then reports unchanged with no second callback. -/
theorem c8_sideUpdate_idempotent_witness :
    (SideUpdate exCfg exState (some [1, 2, 3]) 5).error = none ∧
    ((SideUpdate exCfg (SideUpdate exCfg exState (some [1, 2, 3]) 5).state
        (some [1, 2, 3]) 6).same = true ∧
      (SideUpdate exCfg exState (some [1, 2, 3]) 5).onUpdateCalls.length +
        (SideUpdate exCfg
          (SideUpdate exCfg exState (some [1, 2, 3]) 5).state
          (some [1, 2, 3]) 6).onUpdateCalls.length ≤ 1) :=
  ⟨by decide,
   c8_sideUpdate_idempotent exCfg exState (some [1, 2, 3]) 5 6 (by decide)⟩

/-! Lemmas about the refresh-driver start and the bootstrap. -/

/-- `startPullLoop` starts the poll goroutine exactly for a non-File
vehicle with a positive interval, and then with exactly the force flag it
was given. -/
theorem startPullLoop_fst_pullLoop_iff (cfg : FetcherCfg V E H) (f b : Bool) :
    (startPullLoop cfg f).1 = DriverStart.pullLoop b ↔
      cfg.vehicleType ≠ VehicleType.File ∧ 0 < cfg.interval ∧ b = f := by
  by_cases hft : cfg.vehicleType = VehicleType.File
  · cases hws : cfg.watchSetup <;> simp [startPullLoop, hft, hws]
  · by_cases hint : 0 < cfg.interval <;>
      simp [startPullLoop, hft, hint, eq_comm]

/-- A non-forced driver start never yields the forced poll loop. -/
theorem startPullLoop_false_not_forced (cfg : FetcherCfg V E H) :
    (startPullLoop cfg false).1 ≠ DriverStart.pullLoop true := by
  intro hcon
  have h := (startPullLoop_fst_pullLoop_iff cfg false true).mp hcon
  exact Bool.true_eq_false.mp h.2.2

/-- `immediateRefresh` holds exactly for the forced poll loop. -/
theorem immediateRefresh_eq_true_iff (r : InitialResult V E H) :
    r.immediateRefresh = true ↔ r.driver = DriverStart.pullLoop true := by
  cases hd : r.driver with
  | watcher => simp [InitialResult.immediateRefresh, hd]
  | idle => simp [InitialResult.immediateRefresh, hd]
  | pullLoop b => cases b <;> simp [InitialResult.immediateRefresh, hd]

/-- The fallback tail always records the direct update, starts the driver
unforced, and, when the driver start succeeds, returns exactly the
update's error. -/
theorem initialFallback_spec [DecidableEq H] (cfg : FetcherCfg V E H)
    (fallbackRead : Except E (Option (List Nat) × H)) (now : Int)
    (s0 : FetcherState H) :
    (initialFallback cfg fallbackRead now s0).fallbackUpdate =
      some (Update cfg s0 fallbackRead now) ∧
    (initialFallback cfg fallbackRead now s0).driver =
      (startPullLoop cfg false).1 ∧
    ((startPullLoop cfg false).2 = none →
      (initialFallback cfg fallbackRead now s0).error =
        (Update cfg s0 fallbackRead now).error) := by
  simp only [initialFallback]
  cases hsp : (startPullLoop cfg false).2 with
  | some e => simp [hsp]
  | none =>
    cases herr : (Update cfg s0 fallbackRead now).error <;> simp [hsp, herr]

/-- `Initial` without a local mirror is exactly the fallback tail. -/
theorem Initial_stat_none [DecidableEq H] (cfg : FetcherCfg V E H)
    (s : FetcherState H) (readFileResult : Except E (List Nat))
    (fallbackRead : Except E (Option (List Nat) × H)) (now : Int) :
    Initial cfg s none readFileResult fallbackRead now =
      initialFallback cfg fallbackRead now s := rfl

/-- `Initial` with a mirror whose commit step fails runs the fallback tail
from the state left by the failed commit, with `updatedAt` reset to the
mirror's modification time. -/
theorem Initial_stat_some_err [DecidableEq H] (cfg : FetcherCfg V E H)
    (s : FetcherState H) (modTime : Int)
    (readFileResult : Except E (List Nat))
    (fallbackRead : Except E (Option (List Nat) × H)) (now : Int) (e : E)
    (herr : (loadBuf cfg s readFileResult.toOption
      (cfg.mkHash (readFileResult.toOption.getD [])) false now).error =
      some e) :
    Initial cfg s (some modTime) readFileResult fallbackRead now =
      initialFallback cfg fallbackRead now
        { (loadBuf cfg s readFileResult.toOption
            (cfg.mkHash (readFileResult.toOption.getD [])) false now).state
          with updatedAt := modTime } := by
  simp only [Initial]
  rw [herr]

/-- `Initial` with a mirror whose commit step succeeds starts the driver
with the staleness-derived force flag and never runs the fallback
update. -/
theorem Initial_stat_some_ok [DecidableEq H] (cfg : FetcherCfg V E H)
    (s : FetcherState H) (modTime : Int)
    (readFileResult : Except E (List Nat))
    (fallbackRead : Except E (Option (List Nat) × H)) (now : Int)
    (herr : (loadBuf cfg s readFileResult.toOption
      (cfg.mkHash (readFileResult.toOption.getD [])) false now).error =
      none) :
    (Initial cfg s (some modTime) readFileResult fallbackRead
      now).fallbackUpdate = none ∧
    (Initial cfg s (some modTime) readFileResult fallbackRead now).driver =
      (startPullLoop cfg (decide (now - modTime > cfg.interval))).1 := by
  simp only [Initial]
  rw [herr]
  cases hsp : (startPullLoop cfg
      (decide (now - modTime > cfg.interval))).2 <;>
    simp [hsp]

/-- C5: when the local mirror is absent or its content fails to parse,
`Initial` performs one direct source `Update`, starts the refresh driver
without a forced immediate refresh and independently of the update's
outcome, and — whenever the driver start itself succeeds — returns
exactly the update's error. -/
theorem c5_initial_fallback_path [DecidableEq H] (cfg : FetcherCfg V E H)
    (s : FetcherState H) (statResult : Option Int)
    (readFileResult : Except E (List Nat))
    (fallbackRead : Except E (Option (List Nat) × H)) (now : Int)
    (hfb : statResult = none ∨
      (loadBuf cfg s readFileResult.toOption
        (cfg.mkHash (readFileResult.toOption.getD [])) false now).error ≠
        none) :
    ∃ u, (Initial cfg s statResult readFileResult fallbackRead
        now).fallbackUpdate = some u ∧
      (Initial cfg s statResult readFileResult fallbackRead now).driver =
        (startPullLoop cfg false).1 ∧
      (Initial cfg s statResult readFileResult fallbackRead
        now).immediateRefresh = false ∧
      ((startPullLoop cfg false).2 = none →
        (Initial cfg s statResult readFileResult fallbackRead now).error =
          u.error) := by
  have hfall : ∀ s0 : FetcherState H,
      ∃ u, (initialFallback cfg fallbackRead now s0).fallbackUpdate =
          some u ∧
        (initialFallback cfg fallbackRead now s0).driver =
          (startPullLoop cfg false).1 ∧
        (initialFallback cfg fallbackRead now s0).immediateRefresh =
          false ∧
        ((startPullLoop cfg false).2 = none →
          (initialFallback cfg fallbackRead now s0).error = u.error) := by
    intro s0
    obtain ⟨h1, h2, h3⟩ := initialFallback_spec cfg fallbackRead now s0
    refine ⟨Update cfg s0 fallbackRead now, h1, h2, ?_, h3⟩
    rw [Bool.eq_false_iff]
    intro hcon
    have hdr := (immediateRefresh_eq_true_iff _).mp hcon
    rw [h2] at hdr
    exact startPullLoop_false_not_forced cfg hdr
  rcases hfb with hnone | herr
  · subst hnone
    rw [Initial_stat_none cfg s readFileResult fallbackRead now]
    exact hfall s
  · cases statResult with
    | none =>
      rw [Initial_stat_none cfg s readFileResult fallbackRead now]
      exact hfall s
    | some modTime =>
      cases herr2 : (loadBuf cfg s readFileResult.toOption
          (cfg.mkHash (readFileResult.toOption.getD [])) false now).error
        with
      | none => exact absurd herr2 herr
      | some e =>
        rw [Initial_stat_some_err cfg s modTime readFileResult
          fallbackRead now e herr2]
        exact hfall _

/-- Witness for C5: with no local mirror, `Initial` runs the direct
update, starts the unforced driver, and reports the update's outcome. -/
theorem c5_initial_fallback_path_witness :
    ∃ u, (Initial exCfg exState none (Except.ok [1])
        (Except.ok (some [1, 2], 102)) 5).fallbackUpdate = some u ∧
      (Initial exCfg exState none (Except.ok [1])
        (Except.ok (some [1, 2], 102)) 5).driver =
        (startPullLoop exCfg false).1 ∧
      (Initial exCfg exState none (Except.ok [1])
        (Except.ok (some [1, 2], 102)) 5).immediateRefresh = false ∧
      ((startPullLoop exCfg false).2 = none →
        (Initial exCfg exState none (Except.ok [1])
          (Except.ok (some [1, 2], 102)) 5).error = u.error) :=
  c5_initial_fallback_path exCfg exState none (Except.ok [1])
    (Except.ok (some [1, 2], 102)) 5 (Or.inl rfl)

/-- Counterexample to C6: a File-vehicle fetcher with an existing,
readable, successfully parsed mirror that is far older than the interval
satisfies every condition of the claim, yet `Initial` starts the watcher
and performs no immediate refresh cycle. -/
theorem c6_forced_refresh_cex :
    exCfgFile.parser [1] = Except.ok 1 ∧
    (100 : Int) - 0 > exCfgFile.interval ∧
    (Initial exCfgFile exState (some 0) (Except.ok [1])
      (Except.error "unused") 100).error = none ∧
    (Initial exCfgFile exState (some 0) (Except.ok [1])
      (Except.error "unused") 100).driver = DriverStart.watcher ∧
    (Initial exCfgFile exState (some 0) (Except.ok [1])
      (Except.error "unused") 100).immediateRefresh = false :=
  ⟨rfl, by decide, rfl, rfl, rfl⟩

/-- C6 (amended): `Initial` triggers an immediate refresh cycle exactly
when the mirror stat succeeds, the mirror commit returns no error (which
covers a successful parse but also an unchanged fingerprint or an
unreadable mirror file committed as an absent buffer), the modification
time is older than `now - interval`, and additionally the vehicle is not
File-typed and the interval is positive; given a readable, parseable
mirror newer than `now - interval`, `Initial` never runs the fallback
source read and forces no refresh. -/
theorem c6_initial_refresh_characterization [DecidableEq H]
    (cfg : FetcherCfg V E H) (s : FetcherState H) (statResult : Option Int)
    (readFileResult : Except E (List Nat))
    (fallbackRead : Except E (Option (List Nat) × H)) (now : Int) :
    ((Initial cfg s statResult readFileResult fallbackRead
        now).immediateRefresh = true ↔
      (∃ modTime, statResult = some modTime ∧
        (loadBuf cfg s readFileResult.toOption
          (cfg.mkHash (readFileResult.toOption.getD [])) false now).error =
          none ∧
        now - modTime > cfg.interval ∧
        cfg.vehicleType ≠ VehicleType.File ∧ 0 < cfg.interval)) ∧
    (∀ (modTime : Int) (b : List Nat) (v : V), statResult = some modTime →
      readFileResult = Except.ok b → cfg.parser b = Except.ok v →
      now - modTime ≤ cfg.interval →
      (Initial cfg s statResult readFileResult fallbackRead
        now).fallbackUpdate = none ∧
      (Initial cfg s statResult readFileResult fallbackRead
        now).immediateRefresh = false) := by
  constructor
  · rw [immediateRefresh_eq_true_iff]
    cases statResult with
    | none =>
      rw [Initial_stat_none cfg s readFileResult fallbackRead now]
      constructor
      · intro hdr
        obtain ⟨-, h2, -⟩ := initialFallback_spec cfg fallbackRead now s
        rw [h2] at hdr
        exact absurd hdr (startPullLoop_false_not_forced cfg)
      · rintro ⟨mt, hmt, -⟩
        exact Option.noConfusion hmt
    | some modTime =>
      cases herr : (loadBuf cfg s readFileResult.toOption
          (cfg.mkHash (readFileResult.toOption.getD [])) false now).error
        with
      | some e =>
        rw [Initial_stat_some_err cfg s modTime readFileResult
          fallbackRead now e herr]
        constructor
        · intro hdr
          obtain ⟨-, h2, -⟩ := initialFallback_spec cfg fallbackRead now _
          rw [h2] at hdr
          exact absurd hdr (startPullLoop_false_not_forced cfg)
        · rintro ⟨mt, hmt, herr2, -⟩
          exact Option.noConfusion herr2
      | none =>
        have hd := (Initial_stat_some_ok cfg s modTime readFileResult
          fallbackRead now herr).2
        rw [hd, startPullLoop_fst_pullLoop_iff]
        constructor
        · rintro ⟨hft, hint, hb⟩
          exact ⟨modTime, rfl, rfl, of_decide_eq_true hb.symm, hft, hint⟩
        · rintro ⟨mt, hmt, -, hgt, hft, hint⟩
          injection hmt with hmt2
          subst hmt2
          exact ⟨hft, hint, (decide_eq_true hgt).symm⟩
  · intro modTime b v hst hrf hp hle
    subst hst
    subst hrf
    have herr : (loadBuf cfg s (some b) (cfg.mkHash ((some b).getD []))
        false now).error = none := by
      by_cases heq : s.hash = cfg.mkHash ((some b).getD [])
      · rw [loadBuf_hashEq cfg s (some b) (cfg.mkHash ((some b).getD []))
          false now heq]
      · rw [loadBuf_commit cfg s b (cfg.mkHash ((some b).getD [])) false
          now v heq hp rfl]
    obtain ⟨h1, h2⟩ := Initial_stat_some_ok cfg s modTime (Except.ok b)
      fallbackRead now herr
    refine ⟨h1, ?_⟩
    rw [Bool.eq_false_iff]
    intro hcon
    have hdr := (immediateRefresh_eq_true_iff _).mp hcon
    rw [h2, startPullLoop_fst_pullLoop_iff] at hdr
    have hgt := of_decide_eq_true hdr.2.2.symm
    omega

/-- Witness for C6 (amended): a fresh, parseable mirror (2 time units old
with interval 10) neither reads from the source nor forces a refresh. -/
theorem c6_initial_refresh_characterization_witness :
    exCfg.parser [1, 2] = Except.ok 2 ∧
    (100 : Int) - 98 ≤ exCfg.interval ∧
    ((Initial exCfg exState (some 98) (Except.ok [1, 2])
        (Except.error "unusedB") 100).fallbackUpdate = none ∧
      (Initial exCfg exState (some 98) (Except.ok [1, 2])
        (Except.error "unusedB") 100).immediateRefresh = false) :=
  ⟨rfl, by decide,
   (c6_initial_refresh_characterization exCfg exState (some 98)
      (Except.ok [1, 2]) (Except.error "unusedB") 100).2 98 [1, 2] 2 rfl
      rfl rfl (by decide)⟩

end Resource
